import Mathlib

/-!
Shallow embedding of two subsystems of the oras repository:
the push option/configuration engine with its artifact-name path
validator (pkg/oras/push_opts.go), and the manifest deletion
workflow (cmd/oras/root/manifest/delete.go).

Go strings are modelled as Lean strings over their characters
(all names and digests handled here are ASCII, where Go's
byte-oriented operations and character-oriented operations agree).
Platform-dependent filepath functions are embedded with GOOS=linux
semantics: filepath.Separator is the slash, so filepath.ToSlash is
the identity and filepath.Clean agrees with path.Clean.
-/

/-! ## Descriptor data model -/

/-- Content digest with algorithm tag, e.g. sha256:abc.... The
encoded part is the hex portion after the colon, as returned by
the external go-digest Encoded method. -/
structure Digest where
  algorithm : String
  encoded : String
deriving DecidableEq, Repr

/-- String form of a digest, algorithm-prefixed. -/
def digestString (d : Digest) : String :=
  d.algorithm ++ ":" ++ d.encoded

/-- OCI descriptor (ocispec.Descriptor): media type, digest, size and
annotations. Annotations model Go's map of string to string as an
association list. -/
structure Descriptor where
  mediaType : String
  digest : Digest
  size : Int
  annotations : List (String × String)
deriving DecidableEq, Repr

/-- OCI image-spec title key looked up by the content package. -/
def AnnotationTitle : String := "org.opencontainers.image.title"

/-- Modelled from the spec: ResolveName lives in pkg/content of this
repository, which is not under src/; the spec says a descriptor has an
optional name resolved from its annotations. Returns the title
annotation when present. -/
def ResolveName (desc : Descriptor) : Option String :=
  desc.annotations.lookup AnnotationTitle

/-! ## Go path.Clean embedding -/

/-- Split a character list on the slash character (strings.Split on
the path separator), used to drive the path-cleaning stack. -/
def splitSlashAux : List Char → List Char → List String
  | [], cur => [String.mk cur.reverse]
  | c :: rest, cur =>
    if c = '/' then String.mk cur.reverse :: splitSlashAux rest []
    else splitSlashAux rest (c :: cur)

/-- Split a string on slashes. -/
def splitSlash (p : String) : List String :=
  splitSlashAux p.data []

/-- One step of Go path.Clean over the segment stack (stack held in
reverse, head is the most recent kept segment). Empty and dot
segments vanish; a dotdot segment pops a real segment, is dropped at
the root of a rooted path, and is kept otherwise. -/
def cleanStep (rooted : Bool) (stack : List String) (seg : String) : List String :=
  if seg = "" ∨ seg = "." then stack
  else if seg = ".." then
    match stack with
    | [] => if rooted then [] else [".."]
    | top :: rest => if top = ".." then ".." :: top :: rest else rest
  else seg :: stack

/-- Join segments with slashes. -/
def joinSlash : List String → String
  | [] => ""
  | [s] => s
  | s :: rest => s ++ "/" ++ joinSlash rest

/-- Go path.Clean: lexical simplification of a slash-separated path.
Removes empty and dot segments, resolves dotdot against preceding
segments, drops dotdot at the root of a rooted path, returns a dot
for an empty result. -/
def goPathClean (p : String) : String :=
  if p = "" then "."
  else
    let rooted := p.data.head? = some '/'
    let segs := (splitSlash p).foldl (cleanStep rooted) []
    let body := joinSlash segs.reverse
    if rooted then "/" ++ body
    else if body = "" then "." else body

/-- Go filepath.ToSlash under GOOS=linux: the separator already is the
slash, so this is the identity. -/
def filepathToSlash (p : String) : String := p

/-- strings.Contains specialised to a single character. -/
def goContainsChar (p : String) (c : Char) : Bool :=
  p.data.contains c

/-- strings.HasPrefix over the character lists. -/
def goStartsWith (p pre : String) : Bool :=
  pre.data.isPrefixOf p.data

/-- The drive-letter absolute-path test from ValidateNameAsPath: the
path has more than two characters, the second is a colon, the third a
slash, and the first an ASCII letter. -/
def isDriveAbsolute (p : String) : Bool :=
  match p.data with
  | c :: d :: s :: _ =>
    d = ':' && s = '/' &&
      (97 ≤ c.toNat && c.toNat ≤ 122 || 65 ≤ c.toNat && c.toNat ≤ 90)
  | _ => false

/-! ## Path validator -/

/-- The validation errors of pkg/oras (ErrNoName and friends); the
wrapping errors carry the offending path as errors.Wrap does. -/
inductive ValidationErr where
  | noName
  | dirtyPath (path : String)
  | pathNotSlashSeparated (path : String)
  | absolutePathDisallowed (path : String)
  | pathTraversalDisallowed (path : String)
deriving DecidableEq, Repr

/-- ValidateNameAsPath from push_opts.go: resolve the name from the
descriptor annotations, then check in order that the name is present
and nonempty, clean, slash separated, not absolute (POSIX or drive
form) and not a traversal. -/
def ValidateNameAsPath (desc : Descriptor) : Except ValidationErr Unit :=
  match ResolveName desc with
  | none => .error .noName
  | some path =>
    if path = "" then .error .noName
    else if filepathToSlash (goPathClean path) ≠ path then .error (.dirtyPath path)
    else if goContainsChar path '\\' then .error (.pathNotSlashSeparated path)
    else if goStartsWith path "/" then .error (.absolutePathDisallowed path)
    else if isDriveAbsolute path then .error (.absolutePathDisallowed path)
    else if goStartsWith path "../" || path = ".." then .error (.pathTraversalDisallowed path)
    else .ok ()

/-- A descriptor carrying the given name as its title annotation. -/
def namedDesc (name : String) : Descriptor :=
  { mediaType := "application/octet-stream"
    digest := { algorithm := "sha256", encoded := "0123456789abcdef0123456789abcdef0123456789abcdef0123456789abcdef" }
    size := 4
    annotations := [(AnnotationTitle, name)] }

/-- A descriptor with no title annotation at all. -/
def noNameDesc : Descriptor :=
  { mediaType := "application/octet-stream"
    digest := { algorithm := "sha256", encoded := "0123456789abcdef0123456789abcdef0123456789abcdef0123456789abcdef" }
    size := 4
    annotations := [] }

/-! ## Status tracking handler and push options -/

/-- Go runtime panics this embedding makes explicit: string slicing
out of range. -/
inductive GoPanic where
  | sliceOutOfRange
deriving DecidableEq, Repr

/-- Go string slicing s[:n]: total only when n is at most the length,
otherwise the runtime panics with slice bounds out of range. Digests
are ASCII, so character count equals Go's byte count. -/
def goSliceUpTo (s : String) (n : Nat) : Except GoPanic String :=
  if n ≤ s.data.length then .ok (String.mk (s.data.take n))
  else .error .sliceOutOfRange

/-- A handler processes one descriptor and yields dependent
descriptors to walk next plus the lines it writes to its sink, or
panics/fails; images.Handler with the writer side effect made
explicit. -/
def Handler : Type :=
  Descriptor → Except GoPanic (List Descriptor × List String)

/-- pushStatusTrack from push_opts.go: on a descriptor with a
resolvable name, write one Uploading line with the first twelve
characters of the encoded digest and the name, returning no
dependents; descriptors without a name are skipped. The print mutex
serialises concurrent writes and is invisible in this sequential
embedding. -/
def pushStatusTrack : Handler := fun desc =>
  match ResolveName desc with
  | some name =>
    match goSliceUpTo desc.digest.encoded 12 with
    | .ok short => .ok ([], ["Uploading " ++ short ++ " " ++ name])
    | .error p => .error p
  | none => .ok ([], [])

/-- Artifact-spec descriptor (artifactspec.Descriptor): the projection
target of convertV1DescriptorToV2. -/
structure ArtifactDescriptor where
  mediaType : String
  digest : Digest
  size : Int
  annotations : List (String × String)
deriving DecidableEq, Repr

/-- Modelled from the spec: convertV1DescriptorToV2 lives elsewhere in
pkg/oras and is not under src/; the spec calls it a pure structural
projection copying media type, digest, size and the annotations. -/
def convertV1DescriptorToV2 (d : Descriptor) : ArtifactDescriptor :=
  { mediaType := d.mediaType
    digest := d.digest
    size := d.size
    annotations := d.annotations }

/-- The artifact wrapper built by AsArtifact (artifactspec.Manifest
restricted to the two fields AsArtifact sets). -/
structure ArtifactManifest where
  ArtifactType : String
  Subject : ArtifactDescriptor
deriving DecidableEq, Repr

/-- The push configuration struct pushOpts, polymorphic in the opaque
io.Writer type W. Name validation is a nilable function value. -/
structure pushOpts (W : Type) where
  config : Option Descriptor := none
  configMediaType : String := ""
  configAnnotations : Option (List (String × String)) := none
  manifest : Option Descriptor := none
  manifestAnnotations : Option (List (String × String)) := none
  manifestWriter : Option W := none
  validateName : Option (Descriptor → Except ValidationErr Unit) := none
  baseHandlers : List Handler := []
  artifact : Option ArtifactManifest := none

/-- pushOptsDefaults: only the name validator is initialised, to
ValidateNameAsPath. -/
def pushOptsDefaults (W : Type) : pushOpts W :=
  { validateName := some ValidateNameAsPath }

/-- PushOpt: an option mutator over the push configuration, returning
an error or the updated configuration (Go mutates in place; this
embedding passes the record). -/
def PushOpt (W : Type) : Type :=
  pushOpts W → Except String (pushOpts W)

/-- WithConfig overrides the config descriptor. -/
def WithConfig {W : Type} (config : Descriptor) : PushOpt W :=
  fun o => .ok { o with config := some config }

/-- WithConfigMediaType overrides the config media type. -/
def WithConfigMediaType {W : Type} (mediaType : String) : PushOpt W :=
  fun o => .ok { o with configMediaType := mediaType }

/-- WithConfigAnnotations overrides the config annotations. -/
def WithConfigAnnotations {W : Type} (a : List (String × String)) : PushOpt W :=
  fun o => .ok { o with configAnnotations := some a }

/-- WithManifest overrides the manifest descriptor. -/
def WithManifest {W : Type} (manifest : Descriptor) : PushOpt W :=
  fun o => .ok { o with manifest := some manifest }

/-- WithManifestAnnotations overrides the manifest annotations. -/
def WithManifestAnnotations {W : Type} (a : List (String × String)) : PushOpt W :=
  fun o => .ok { o with manifestAnnotations := some a }

/-- WithManifestWriter exports the pushed manifest to the writer. -/
def WithManifestWriter {W : Type} (writer : W) : PushOpt W :=
  fun o => .ok { o with manifestWriter := some writer }

/-- WithNameValidation installs or clears the name validator (nil
disables validation). -/
def WithNameValidation {W : Type} (validate : Option (Descriptor → Except ValidationErr Unit)) : PushOpt W :=
  fun o => .ok { o with validateName := validate }

/-- WithPushBaseHandler appends the supplied handlers onto the base
handler list. -/
def WithPushBaseHandler {W : Type} (handlers : List Handler) : PushOpt W :=
  fun o => .ok { o with baseHandlers := o.baseHandlers ++ handlers }

/-- WithPushStatusTrack registers the status tracking handler as a
base handler over the given writer sink. -/
def WithPushStatusTrack {W : Type} : PushOpt W :=
  WithPushBaseHandler [pushStatusTrack]

/-- AsArtifact wraps the push as an OCI artifact with the given
artifact type and converted subject descriptor. -/
def AsArtifact {W : Type} (artifactType : String) (manifest : Descriptor) : PushOpt W :=
  fun o => .ok { o with artifact := some { ArtifactType := artifactType, Subject := convertV1DescriptorToV2 manifest } }

/-- Modelled from the spec: the option application loop lives in the
push entry point, which is not under src/; the spec says mutators are
applied left to right, aborting on the first mutator error. -/
def applyPushOpts {W : Type} : List (PushOpt W) → pushOpts W → Except String (pushOpts W)
  | [], o => .ok o
  | f :: fs, o =>
    match f o with
    | .error e => .error e
    | .ok o2 => applyPushOpts fs o2

/-! ## Manifest deletion workflow -/

/-- Authentication actions from the auth package. -/
inductive AuthAction where
  | Pull
  | Push
  | Delete
deriving DecidableEq, Repr

/-- Parsed registry reference: registry, repository and the
tag-or-digest reference component, possibly empty. -/
structure Reference where
  registry : String
  repository : String
  reference : String
deriving DecidableEq, Repr

/-- The repository handle returned by NewRepository, reduced to the
parsed reference this workflow consults. -/
structure Repo where
  reference : Reference
deriving DecidableEq, Repr

/-- Resolve failures distinguishable by errors.Is against
errdef.ErrNotFound: not-found, or any other store error. -/
inductive ResolveErr where
  | notFound
  | other (msg : String)
deriving DecidableEq, Repr

/-- The command options of deleteOptions that deleteManifest reads:
the force flag, the descriptor output flag, the tri-state referrers
capability, and the raw target reference argument. -/
structure deleteOptions where
  Force : Bool
  OutputDescriptor : Bool
  ReferrersAPI : Option Bool
  targetRef : String
deriving DecidableEq, Repr

/-- Errors deleteManifest can return, one constructor per return
site; fromResolve propagates a resolve error verbatim. -/
inductive DelErr where
  | newRepoErr (msg : String)
  | invalidReference (ref : Reference)
  | preRunErr (msg : String)
  | fromResolve (e : ResolveErr)
  | manifestDoesNotExist (targetRef : String)
  | confirmErr (msg : String)
  | deleteFailed (targetRef : String) (cause : String)
  | marshalErr (msg : String)
  | outputErr (msg : String)
deriving DecidableEq, Repr

/-- Full reference string for error rendering. -/
def refString (r : Reference) : String :=
  r.registry ++ "/" ++ r.repository ++ ":" ++ r.reference

/-- Human-readable message of each workflow error, following the fmt
format strings of delete.go; the invalid-reference text is modelled
from the spec since the errors package is not under src/. -/
def errMessage : DelErr → String
  | .newRepoErr m => m
  | .invalidReference r => "invalid reference: " ++ refString r
  | .preRunErr m => m
  | .fromResolve .notFound => "not found"
  | .fromResolve (.other m) => m
  | .manifestDoesNotExist ref => ref ++ ": the specified manifest does not exist"
  | .confirmErr m => m
  | .deleteFailed ref cause => "failed to delete " ++ ref ++ ": " ++ cause
  | .marshalErr m => m
  | .outputErr m => m

/-- Observable events of one workflow run, in order: scope hint
registration, the resolve network call, the confirmation prompt, the
delete network call, marshalling, and writes to standard output. -/
inductive Event where
  | registerScopeHints (ref : Reference) (hints : List AuthAction)
  | resolve (targetRef : String)
  | askConfirm (prompt : String)
  | deleteCall (desc : Descriptor)
  | marshalCall (desc : Descriptor)
  | outputWrite (bytes : String)
  | printLine (line : String)
deriving DecidableEq, Repr

/-- Behaviour of the external collaborators for one run: the
repository parse result, the resolve result, the interactive
confirmation answer, the delete result, and the marshal and output
results. -/
structure Env where
  newRepoResult : Except String Repo
  resolveResult : Except ResolveErr Descriptor
  confirmInput : Except String Bool
  deleteResult : Except String Unit
  marshalResult : Except String String
  outputResult : Except String Unit

/-- The scope hint list built by deleteManifest: pull, push and
delete always, and a second push when the referrers capability is nil
or known false. -/
def deleteHints (referrersAPI : Option Bool) : List AuthAction :=
  let hints : List AuthAction := [.Pull, .Push, .Delete]
  match referrersAPI with
  | none => hints ++ [.Push]
  | some b => if b then hints else hints ++ [.Push]

/-- Append an action to a hint set unless already present. -/
def insertHint (acc : List AuthAction) (a : AuthAction) : List AuthAction :=
  if a ∈ acc then acc else acc ++ [a]

/-- Modelled from the spec: registryutil.WithScopeHint is not under
src/; the spec says a scope hint is an ordered set of auth actions,
deduplicated. Registers the first occurrence of each action in
order. -/
def WithScopeHint (hints : List AuthAction) : List AuthAction :=
  hints.foldl insertHint []

/-- Modelled from the spec: option.Confirmation is not under src/;
the spec says the confirmation gate is bypassed exactly when the
force flag is set, otherwise the interactive answer decides. -/
def AskForConfirmation (force : Bool) (input : Except String Bool) : Except String Bool :=
  if force then .ok true else input

/-- The confirmation prompt built from the resolved digest. -/
def deletePrompt (d : Digest) : String :=
  "Are you sure you want to delete the manifest \"" ++ digestString d ++ "\" and all tags associated with it?"

/-- The part of deleteManifest from the resolve call on: not-found
handling under the force and descriptor-output flags, confirmation,
the delete call, and reporting. Returns the events after the resolve
event together with the returned error. -/
def resolveAndDelete (opts : deleteOptions) (env : Env) : List Event × Option DelErr :=
  match env.resolveResult with
  | .error .notFound =>
    if opts.Force && !opts.OutputDescriptor then
      ([.printLine ("Missing " ++ opts.targetRef)], none)
    else ([], some (.manifestDoesNotExist opts.targetRef))
  | .error e => ([], some (.fromResolve e))
  | .ok desc =>
    let tail : List Event × Option DelErr :=
      match AskForConfirmation opts.Force env.confirmInput with
      | .error e => ([], some (.confirmErr e))
      | .ok false => ([], none)
      | .ok true =>
        match env.deleteResult with
        | .error e => ([.deleteCall desc], some (.deleteFailed opts.targetRef e))
        | .ok _ =>
          if opts.OutputDescriptor then
            match env.marshalResult with
            | .error e => ([.deleteCall desc, .marshalCall desc], some (.marshalErr e))
            | .ok bytes =>
              match env.outputResult with
              | .error e =>
                ([.deleteCall desc, .marshalCall desc, .outputWrite bytes], some (.outputErr e))
              | .ok _ =>
                ([.deleteCall desc, .marshalCall desc, .outputWrite bytes], none)
          else ([.deleteCall desc, .printLine ("Deleted " ++ opts.targetRef)], none)
    (.askConfirm (deletePrompt desc.digest) :: tail.1, tail.2)

/-- deleteManifest from delete.go: parse the repository, reject an
empty reference component before any network activity, register the
deduplicated scope hints, resolve, and hand over to the post-resolve
stage. The first component lists the observable events in order. -/
def deleteManifest (opts : deleteOptions) (env : Env) : List Event × Option DelErr :=
  match env.newRepoResult with
  | .error e => ([], some (.newRepoErr e))
  | .ok repo =>
    if repo.reference.reference = "" then
      ([], some (.invalidReference repo.reference))
    else
      let hints := WithScopeHint (deleteHints opts.ReferrersAPI)
      let rest := resolveAndDelete opts env
      (.registerScopeHints repo.reference hints :: .resolve opts.targetRef :: rest.1, rest.2)

/-- The PreRunE hook of deleteCmd: requesting descriptor output
without the force flag is rejected with a fixed message; otherwise
flag parsing (option.Parse, external) decides. -/
def deleteCmdPreRun (opts : deleteOptions) (parseResult : Option String) : Option String :=
  if opts.OutputDescriptor && !opts.Force then
    some "must apply --force to confirm the deletion if the descriptor is outputted"
  else parseResult

/-- The command run: PreRunE validation first, then deleteManifest. -/
def runDeleteCmd (opts : deleteOptions) (parseResult : Option String) (env : Env) : List Event × Option DelErr :=
  match deleteCmdPreRun opts parseResult with
  | some e => ([], some (.preRunErr e))
  | none => deleteManifest opts env

/-- Whether a trace contains a delete network call. -/
def hasDeleteCall (events : List Event) : Bool :=
  events.any fun e =>
    match e with
    | .deleteCall _ => true
    | _ => false

/-- Whether a trace contains a resolve network call. -/
def hasResolveCall (events : List Event) : Bool :=
  events.any fun e =>
    match e with
    | .resolve _ => true
    | _ => false

/-- Substring containment over the underlying character lists. -/
def strContains (s pat : String) : Prop :=
  ∃ l r, s.data = l ++ pat.data ++ r

/-! ## Concrete fixtures -/

/-- A sample resolved manifest descriptor. -/
def sampleDesc : Descriptor :=
  { mediaType := "application/vnd.oci.image.manifest.v1+json"
    digest := { algorithm := "sha256", encoded := "99e4703fbf30916f549cd6bfa9cdbab614b5392fbe64fdee971359a77073cdf9" }
    size := 7682
    annotations := [] }

/-- A sample parsed repository with a nonempty reference component. -/
def sampleRepo : Repo :=
  { reference := { registry := "localhost:5000", repository := "hello", reference := "v1" } }

/-- A sample parsed repository with an empty reference component. -/
def bareRepo : Repo :=
  { reference := { registry := "localhost:5000", repository := "hello", reference := "" } }

/-- The sample raw target reference argument. -/
def sampleRef : String := "localhost:5000/hello:v1"

/-- Collaborator behaviour where every external call succeeds. -/
def happyEnv : Env :=
  { newRepoResult := .ok sampleRepo
    resolveResult := .ok sampleDesc
    confirmInput := .ok true
    deleteResult := .ok ()
    marshalResult := .ok "{}"
    outputResult := .ok () }

/-- Collaborator behaviour where the resolve call reports not-found. -/
def notFoundEnv : Env :=
  { happyEnv with resolveResult := .error .notFound }

/-- Collaborator behaviour where the user declines the prompt. -/
def declinedEnv : Env :=
  { happyEnv with confirmInput := .ok false }

/-- Collaborator behaviour where the reference parses to a bare
repository. -/
def bareRefEnv : Env :=
  { happyEnv with newRepoResult := .ok bareRepo }

/-- Options with both the force flag and descriptor output set. -/
def forceDescOpts : deleteOptions :=
  { Force := true, OutputDescriptor := true, ReferrersAPI := none, targetRef := sampleRef }

/-- Options with neither force nor descriptor output set. -/
def plainOpts : deleteOptions :=
  { Force := false, OutputDescriptor := false, ReferrersAPI := none, targetRef := sampleRef }

/-! ## Helper lemmas -/

/-- Resolving the name of a descriptor built by namedDesc yields that
name. -/
theorem ResolveName_namedDesc (n : String) : ResolveName (namedDesc n) = some n := by
  simp [ResolveName, namedDesc, List.lookup]

/-- A string is contained in itself followed by anything. -/
theorem strContains_append_left (a b : String) : strContains (a ++ b) a :=
  ⟨[], b.data, by simp [String.data_append]⟩

/-- The fixed suffix of the does-not-exist message contains the words
does not exist, whatever the reference prepended to it. -/
theorem strContains_doesNotExist (ref : String) :
    strContains (ref ++ ": the specified manifest does not exist") "does not exist" := by
  refine ⟨ref.data ++ (": the specified manifest ").data, [], ?_⟩
  simp [String.data_append]

/-! ## Claim theorems -/

/-- C3: the path validator rejects a missing or empty name with
ErrNoName, a name whose cleaned form differs from the verbatim name
with ErrDirtyPath, a backslash-bearing name with
ErrPathNotSlashSeparated, POSIX and drive-letter absolute names with
ErrAbsolutePathDisallowed, and dotdot traversals with
ErrPathTraversalDisallowed, in that order after the name lookup, and
accepts every other well-formed relative slash path, in particular
a/b/c. -/
theorem ValidateNameAsPath_spec (name : String)
    (h1 : ¬ name = "") (h2 : goPathClean name = name)
    (h3 : goContainsChar name '\\' = false)
    (h4 : goStartsWith name "/" = false)
    (h5 : isDriveAbsolute name = false)
    (h6 : goStartsWith name "../" = false)
    (h7 : ¬ name = "..") :
    ValidateNameAsPath (namedDesc name) = .ok () ∧
    ValidateNameAsPath noNameDesc = .error .noName ∧
    ValidateNameAsPath (namedDesc "") = .error .noName ∧
    ValidateNameAsPath (namedDesc "a/./b") = .error (.dirtyPath "a/./b") ∧
    ValidateNameAsPath (namedDesc "a\\b") = .error (.pathNotSlashSeparated "a\\b") ∧
    ValidateNameAsPath (namedDesc "/a/b") = .error (.absolutePathDisallowed "/a/b") ∧
    ValidateNameAsPath (namedDesc "C:/a/b") = .error (.absolutePathDisallowed "C:/a/b") ∧
    ValidateNameAsPath (namedDesc "..") = .error (.pathTraversalDisallowed "..") ∧
    ValidateNameAsPath (namedDesc "../a") = .error (.pathTraversalDisallowed "../a") ∧
    ValidateNameAsPath (namedDesc "a/b/c") = .ok () ∧
    ValidateNameAsPath (namedDesc "a//b\\c") = .error (.dirtyPath "a//b\\c") ∧
    ValidateNameAsPath (namedDesc "/a\\b") = .error (.pathNotSlashSeparated "/a\\b") := by
  refine ⟨?_, rfl, rfl, rfl, rfl, rfl, rfl, rfl, rfl, rfl, rfl, rfl⟩
  have hres := ResolveName_namedDesc name
  simp only [ValidateNameAsPath, hres, filepathToSlash]
  rw [if_neg h1, if_neg (by rw [h2]; exact fun hc => hc rfl)]
  rw [if_neg (by simp [h3]), if_neg (by simp [h4]), if_neg (by simp [h5])]
  rw [if_neg (by simp [h6, h7])]

/-- C3 witness: the validator accepts a concrete well-formed relative
path. -/
theorem ValidateNameAsPath_spec_witness :
    ValidateNameAsPath (namedDesc "docs/readme.md") = .ok () :=
  (ValidateNameAsPath_spec "docs/readme.md" (by decide) rfl rfl rfl rfl rfl (by decide)).1

/-- C1 counterexample: supplying force together with descriptor
output is not rejected at configuration-validation time — the PreRunE
check passes and the resolve network call is attempted. -/
theorem deleteCmd_force_descriptor_not_rejected :
    deleteCmdPreRun forceDescOpts none = none ∧
    hasResolveCall (runDeleteCmd forceDescOpts none happyEnv).1 = true :=
  ⟨rfl, rfl⟩

/-- C1 amended: supplying descriptor-output mode without force mode
is rejected up front, at configuration-validation time, before
reference resolution or any network activity is attempted. -/
theorem deleteCmd_descriptor_without_force_rejected
    (opts : deleteOptions) (parseResult : Option String) (env : Env)
    (h1 : opts.OutputDescriptor = true) (h2 : opts.Force = false) :
    runDeleteCmd opts parseResult env =
      ([], some (.preRunErr "must apply --force to confirm the deletion if the descriptor is outputted")) := by
  simp [runDeleteCmd, deleteCmdPreRun, h1, h2]

/-- C1 amended witness: a concrete descriptor-output invocation
without force is rejected with the fixed message and an empty event
trace. -/
theorem deleteCmd_descriptor_without_force_rejected_witness :
    runDeleteCmd { Force := false, OutputDescriptor := true, ReferrersAPI := none, targetRef := sampleRef } none happyEnv =
      ([], some (.preRunErr "must apply --force to confirm the deletion if the descriptor is outputted")) :=
  deleteCmd_descriptor_without_force_rejected _ none happyEnv rfl rfl

/-- C2: when the referrers capability is unknown or known
unsupported, the scope hints registered before the resolve call are
pull, push and delete, with push occurring once in the registered set
although the raw hint list adds it twice. -/
theorem deleteManifest_scopeHints (opts : deleteOptions) (env : Env) (repo : Repo)
    (h1 : env.newRepoResult = .ok repo) (h2 : ¬ repo.reference.reference = "")
    (h3 : opts.ReferrersAPI = none ∨ opts.ReferrersAPI = some false) :
    (deleteManifest opts env).1.take 2 =
      [.registerScopeHints repo.reference [.Pull, .Push, .Delete], .resolve opts.targetRef] ∧
    (WithScopeHint (deleteHints opts.ReferrersAPI)).count .Push = 1 ∧
    (deleteHints opts.ReferrersAPI).count .Push = 2 := by
  have hhints : WithScopeHint (deleteHints opts.ReferrersAPI) = [.Pull, .Push, .Delete] := by
    rcases h3 with h | h <;> rw [h] <;> decide
  refine ⟨?_, by rw [hhints]; decide, ?_⟩
  · simp [deleteManifest, h1, h2, hhints, List.take]
  · rcases h3 with h | h <;> rw [h] <;> decide

/-- C2 witness: a concrete run with an unprobed referrers capability
registers exactly pull, push, delete before resolving. -/
theorem deleteManifest_scopeHints_witness :
    (deleteManifest plainOpts happyEnv).1.take 2 =
      [.registerScopeHints sampleRepo.reference [.Pull, .Push, .Delete], .resolve sampleRef] ∧
    (WithScopeHint (deleteHints none)).count .Push = 1 ∧
    (deleteHints none).count .Push = 2 :=
  deleteManifest_scopeHints plainOpts happyEnv sampleRepo rfl (by decide) (Or.inl rfl)

/-- C4: when resolve reports not-found under force without descriptor
output, the workflow prints a Missing line, returns no error, and
never issues the delete call. -/
theorem deleteManifest_missing_forced (opts : deleteOptions) (env : Env) (repo : Repo)
    (h1 : env.newRepoResult = .ok repo) (h2 : ¬ repo.reference.reference = "")
    (h3 : env.resolveResult = .error .notFound)
    (h4 : opts.Force = true) (h5 : opts.OutputDescriptor = false) :
    (deleteManifest opts env).2 = none ∧
    Event.printLine ("Missing " ++ opts.targetRef) ∈ (deleteManifest opts env).1 ∧
    hasDeleteCall (deleteManifest opts env).1 = false := by
  simp [deleteManifest, resolveAndDelete, h1, h2, h3, h4, h5, hasDeleteCall]

/-- C4 witness: a concrete forced delete of a missing manifest prints
Missing, returns cleanly and never calls delete. -/
theorem deleteManifest_missing_forced_witness :
    (deleteManifest { Force := true, OutputDescriptor := false, ReferrersAPI := none, targetRef := sampleRef } notFoundEnv).2 = none ∧
    Event.printLine ("Missing " ++ sampleRef) ∈ (deleteManifest { Force := true, OutputDescriptor := false, ReferrersAPI := none, targetRef := sampleRef } notFoundEnv).1 ∧
    hasDeleteCall (deleteManifest { Force := true, OutputDescriptor := false, ReferrersAPI := none, targetRef := sampleRef } notFoundEnv).1 = false :=
  deleteManifest_missing_forced _ notFoundEnv sampleRepo rfl (by decide) rfl rfl rfl

/-- C5: when resolve fails and force is not active, a not-found
failure yields an error naming the reference and saying it does not
exist with no delete call, and any other resolve failure is
propagated verbatim, also with no delete call. -/
theorem deleteManifest_notFound_noForce (opts : deleteOptions) (env : Env) (repo : Repo)
    (e : ResolveErr)
    (h1 : env.newRepoResult = .ok repo) (h2 : ¬ repo.reference.reference = "")
    (h3 : env.resolveResult = .error e) (h4 : opts.Force = false) :
    (e = .notFound →
      (deleteManifest opts env).2 = some (.manifestDoesNotExist opts.targetRef) ∧
      strContains (errMessage (.manifestDoesNotExist opts.targetRef)) opts.targetRef ∧
      strContains (errMessage (.manifestDoesNotExist opts.targetRef)) "does not exist" ∧
      hasDeleteCall (deleteManifest opts env).1 = false) ∧
    (¬ e = .notFound →
      (deleteManifest opts env).2 = some (.fromResolve e) ∧
      hasDeleteCall (deleteManifest opts env).1 = false) := by
  constructor
  · intro he
    subst he
    refine ⟨?_, strContains_append_left _ _, strContains_doesNotExist _, ?_⟩ <;>
      simp [deleteManifest, resolveAndDelete, h1, h2, h3, h4, hasDeleteCall]
  · intro he
    cases e with
    | notFound => exact absurd rfl he
    | other s =>
      constructor <;> simp [deleteManifest, resolveAndDelete, h1, h2, h3, hasDeleteCall]

/-- C5 witness: a concrete unforced delete of a missing manifest
returns the does-not-exist error naming the reference, without
calling delete. -/
theorem deleteManifest_notFound_noForce_witness :
    (deleteManifest plainOpts notFoundEnv).2 = some (.manifestDoesNotExist sampleRef) ∧
    strContains (errMessage (.manifestDoesNotExist sampleRef)) sampleRef ∧
    strContains (errMessage (.manifestDoesNotExist sampleRef)) "does not exist" ∧
    hasDeleteCall (deleteManifest plainOpts notFoundEnv).1 = false :=
  (deleteManifest_notFound_noForce plainOpts notFoundEnv sampleRepo .notFound rfl (by decide) rfl rfl).1 rfl

/-- C6: when resolve succeeds and the user declines the confirmation
prompt, the workflow returns no error and never issues the delete
call. -/
theorem deleteManifest_declined (opts : deleteOptions) (env : Env) (repo : Repo)
    (desc : Descriptor)
    (h1 : env.newRepoResult = .ok repo) (h2 : ¬ repo.reference.reference = "")
    (h3 : env.resolveResult = .ok desc) (h4 : opts.Force = false)
    (h5 : env.confirmInput = .ok false) :
    (deleteManifest opts env).2 = none ∧
    hasDeleteCall (deleteManifest opts env).1 = false := by
  constructor <;>
    simp [deleteManifest, resolveAndDelete, AskForConfirmation, h1, h2, h3, h4, h5, hasDeleteCall]

/-- C6 witness: a concrete declined confirmation returns cleanly with
no delete call. -/
theorem deleteManifest_declined_witness :
    (deleteManifest plainOpts declinedEnv).2 = none ∧
    hasDeleteCall (deleteManifest plainOpts declinedEnv).1 = false :=
  deleteManifest_declined plainOpts declinedEnv sampleRepo sampleDesc rfl (by decide) rfl rfl rfl

/-- C7: a parsed target with an empty reference component fails with
the invalid-reference error and an empty event trace, so no network
call and in particular no resolve call is attempted. -/
theorem deleteManifest_emptyReference (opts : deleteOptions) (env : Env) (repo : Repo)
    (h1 : env.newRepoResult = .ok repo) (h2 : repo.reference.reference = "") :
    deleteManifest opts env = ([], some (.invalidReference repo.reference)) ∧
    hasResolveCall (deleteManifest opts env).1 = false := by
  constructor <;> simp [deleteManifest, h1, h2, hasResolveCall]

/-- C7 witness: a concrete bare-repository target fails immediately
with the invalid-reference error and no events. -/
theorem deleteManifest_emptyReference_witness :
    deleteManifest forceDescOpts bareRefEnv = ([], some (.invalidReference bareRepo.reference)) ∧
    hasResolveCall (deleteManifest forceDescOpts bareRefEnv).1 = false :=
  deleteManifest_emptyReference forceDescOpts bareRefEnv bareRepo rfl rfl

/-- C8: the append-base-handlers mutator concatenates the supplied
handlers onto the existing list in order and leaves every other field
of the configuration unchanged; a second application keeps the
handlers appended by the first. -/
theorem WithPushBaseHandler_appends (W : Type) (o : pushOpts W) (hs hs2 : List Handler) :
    WithPushBaseHandler hs o = .ok { o with baseHandlers := o.baseHandlers ++ hs } ∧
    (WithPushBaseHandler hs o).bind (WithPushBaseHandler hs2) =
      .ok { o with baseHandlers := (o.baseHandlers ++ hs) ++ hs2 } :=
  ⟨rfl, rfl⟩

/-- C9: on a descriptor with a resolvable name the status handler is
total exactly when the encoded digest has at least twelve characters,
formatting that prefix with no dependents and no error, and panics
with a slice out of range on a shorter digest. -/
theorem pushStatusTrack_totality (desc : Descriptor) (name : String)
    (h : ResolveName desc = some name) :
    (12 ≤ desc.digest.encoded.data.length →
      pushStatusTrack desc =
        .ok ([], ["Uploading " ++ String.mk (desc.digest.encoded.data.take 12) ++ " " ++ name])) ∧
    (desc.digest.encoded.data.length < 12 →
      pushStatusTrack desc = .error .sliceOutOfRange) := by
  constructor
  · intro hlen
    have hgo : goSliceUpTo desc.digest.encoded 12 = .ok (String.mk (desc.digest.encoded.data.take 12)) := by
      unfold goSliceUpTo
      rw [if_pos hlen]
    simp [pushStatusTrack, h, hgo]
  · intro hlen
    have hgo : goSliceUpTo desc.digest.encoded 12 = .error .sliceOutOfRange := by
      unfold goSliceUpTo
      rw [if_neg (Nat.not_le.mpr hlen)]
    simp [pushStatusTrack, h, hgo]

/-- C9 witness: a concrete named descriptor with a 64-character
digest produces the twelve-character Uploading line. -/
theorem pushStatusTrack_totality_witness :
    pushStatusTrack (namedDesc "a/b") = .ok ([], ["Uploading 0123456789ab a/b"]) :=
  (pushStatusTrack_totality (namedDesc "a/b") "a/b" rfl).1 (by decide)

/-- C10: every push option mutator of the module returns success on
every input, so the fail-fast branch of the option application loop
is unreachable for them. -/
theorem pushOpts_mutators_never_fail (W : Type) (c m : Descriptor) (mt aty : String)
    (ca ma : List (String × String)) (w : W)
    (v : Option (Descriptor → Except ValidationErr Unit)) (hs : List Handler) (o : pushOpts W) :
    WithConfig c o = .ok { o with config := some c } ∧
    WithConfigMediaType mt o = .ok { o with configMediaType := mt } ∧
    WithConfigAnnotations ca o = .ok { o with configAnnotations := some ca } ∧
    WithManifest m o = .ok { o with manifest := some m } ∧
    WithManifestAnnotations ma o = .ok { o with manifestAnnotations := some ma } ∧
    WithManifestWriter w o = .ok { o with manifestWriter := some w } ∧
    WithNameValidation v o = .ok { o with validateName := v } ∧
    WithPushBaseHandler hs o = .ok { o with baseHandlers := o.baseHandlers ++ hs } ∧
    WithPushStatusTrack o = .ok { o with baseHandlers := o.baseHandlers ++ [pushStatusTrack] } ∧
    AsArtifact aty m o = .ok { o with artifact := some { ArtifactType := aty, Subject := convertV1DescriptorToV2 m } } ∧
    ∃ o2, applyPushOpts
      [WithConfig c, WithConfigMediaType mt, WithConfigAnnotations ca, WithManifest m,
       WithManifestAnnotations ma, WithManifestWriter w, WithNameValidation v,
       WithPushBaseHandler hs, WithPushStatusTrack, AsArtifact aty m] o = .ok o2 :=
  ⟨rfl, rfl, rfl, rfl, rfl, rfl, rfl, rfl, rfl, rfl, _, rfl⟩
